import Mathlib

/-!
Verification development for the `llm_autobahn_backend` repository.

The development shallowly embeds the SQL safety rewriter
(`context/doris_connector.py`), the query executor
(`DorisConnectorPydoris._sync_execute_sql` / `execute_custom_sql`) and the
result materializer (`src/serializers/data_serializer.py`) in Lean and proves
the specification claims about them.

Modelling conventions:
* Python strings are Lean `String`s; `str.strip`, `str.upper`, `int(...)`
  are embedded as executable functions over character lists.
* `sqlparse.parse` is an external tokenizer: a parsed statement is taken as
  the list of its flattened tokens (token type + verbatim text), and
  `str(stmt)` is the concatenation of the token texts, which is what
  `sqlparse` guarantees for round-tripping.
* Effectful collaborators (the SQLAlchemy engine, the presigned-URL signer)
  are oracles passed in as functions, with exceptions made explicit.
-/

/-! ## Python string primitives -/

/-- The whitespace characters of Python's `str.strip()` / `\s` (ASCII part). -/
def isPySpace (c : Char) : Bool :=
  c == ' ' || c == '\t' || c == '\n' || c == '\r' || c == '\x0b' || c == '\x0c'

/-- Strip leading and trailing Python whitespace from a character list. -/
def pyStripL (l : List Char) : List Char :=
  ((l.dropWhile isPySpace).reverse.dropWhile isPySpace).reverse

/-- Model of Python `str.strip()`. -/
def pyStrip (s : String) : String :=
  ⟨pyStripL s.data⟩

/-- Model of Python `str.upper()` (character-wise, ASCII). -/
def pyUpper (s : String) : String :=
  ⟨s.data.map Char.toUpper⟩

/-- Model of Python `str.rstrip(';')`: drop all trailing semicolons. -/
def pyRstripSemis (s : String) : String :=
  ⟨(s.data.reverse.dropWhile (· == ';')).reverse⟩

/-- Model of Python `str.startswith(pre)`. -/
def pyStartsWith (s pre : String) : Bool :=
  pre.data.isPrefixOf s.data

/-- Model of Python `str.endswith(suf)`. -/
def pyEndsWith (s suf : String) : Bool :=
  suf.data.reverse.isPrefixOf s.data.reverse

/-- Decimal digits of a natural, with explicit fuel (structural, so that the
kernel can evaluate it); the fuel is always instantiated large enough. -/
def natToCharsAux : Nat → Nat → List Char → List Char
  | 0, _, acc => acc
  | f + 1, n, acc =>
    let d := Char.ofNat (48 + n % 10)
    if n < 10 then d :: acc else natToCharsAux f (n / 10) (d :: acc)

/-- Model of Python `str(i)` for an integer. -/
def intToStr (n : Int) : String :=
  match n with
  | .ofNat m => ⟨natToCharsAux (m + 1) m []⟩
  | .negSucc m => ⟨'-' :: natToCharsAux (m + 2) (m + 1) []⟩

/-- Digit run with Python's single-underscore grouping (`1_000`). -/
def pyDigitsAux : Nat → List Char → Option Nat
  | acc, [] => some acc
  | acc, '_' :: c :: cs =>
    if c.isDigit then pyDigitsAux (acc * 10 + (c.toNat - 48)) cs else none
  | _, ['_'] => none
  | acc, c :: cs =>
    if c.isDigit then pyDigitsAux (acc * 10 + (c.toNat - 48)) cs else none

/-- Parse a nonempty digit run (with underscore grouping) to a natural. -/
def pyDigits? : List Char → Option Nat
  | [] => none
  | c :: cs => if c.isDigit then pyDigitsAux (c.toNat - 48) cs else none

/-- Model of Python `int(s)` on decimal input: optional surrounding
whitespace, optional sign, digits with underscore grouping; `none` models a
raised `ValueError`. -/
def pyInt? (s : String) : Option Int :=
  match pyStripL s.data with
  | '+' :: rest => (pyDigits? rest).map Int.ofNat
  | '-' :: rest => (pyDigits? rest).map (fun n => -(Int.ofNat n))
  | rest => (pyDigits? rest).map Int.ofNat

/-! ## SQL token model (`sqlparse` flattened tokens)

`has_limit_clause`, `parse_limit_value` and `replace_limit_clause` only
distinguish comment tokens, string tokens and DML keyword tokens from
everything else, and otherwise look at the verbatim token text, so a
flattened token is embedded as a type tag plus its text. -/

/-- Token type tag: `sqlparse.tokens.Comment`, `...String`, `...DML`, rest. -/
inductive TType where
  | comment
  | string
  | dml
  | other
deriving DecidableEq, Repr

/-- One flattened `sqlparse` token. -/
structure Token where
  ttype : TType
  value : String
deriving DecidableEq, Repr

/-- A parsed statement: its flattened token list. -/
def Stmt := List Token

instance : Membership Token Stmt := inferInstanceAs (Membership Token (List Token))
instance : DecidableEq Stmt := inferInstanceAs (DecidableEq (List Token))

/-- `str(stmt)`: concatenation of the flattened token texts. -/
def stmtText (s : Stmt) : String :=
  ⟨(s.map (fun t => t.value.data)).flatten⟩

/-- `str(stmt).strip()` as computed at the head of the per-statement loop of
`add_limit_safe`. -/
def stmtStr (s : Stmt) : String :=
  pyStrip (stmtText s)

/-- Is this token skipped by the LIMIT scanners (comment or string literal)? -/
def isSkipToken (t : Token) : Bool :=
  t.ttype == TType.comment || t.ttype == TType.string

/-- Embedding of `has_limit_clause`: some non-comment non-string token whose
uppercased text is exactly `LIMIT`. -/
def has_limit_clause (s : Stmt) : Bool :=
  s.any (fun t => !isSkipToken t && pyUpper t.value == "LIMIT")

/-- Scanner state loop of `parse_limit_value`; the `Bool` is
`limit_token_found`. -/
def parseLimitAux : Bool → List Token → Int
  | _, [] => -1
  | found, t :: ts =>
    if isSkipToken t then parseLimitAux found ts
    else if found then
      if pyStrip t.value = "" then parseLimitAux true ts
      else
        match pyInt? (pyStrip t.value) with
        | some n => n
        | none => -1
    else if pyUpper t.value = "LIMIT" then parseLimitAux true ts
    else parseLimitAux false ts

/-- Embedding of `parse_limit_value`: the number following the first `LIMIT`
keyword, `-1` when absent or non-numeric. -/
def parse_limit_value (s : Stmt) : Int :=
  parseLimitAux false s

/-- Token rewriting loop of `replace_limit_clause`. -/
def replaceLimitAux (n : Int) : Bool → List Token → List String
  | _, [] => []
  | found, t :: ts =>
    if isSkipToken t then t.value :: replaceLimitAux n found ts
    else if found then
      if pyStrip t.value = "" then t.value :: replaceLimitAux n true ts
      else
        match pyInt? (pyStrip t.value) with
        | some _ => intToStr n :: replaceLimitAux n false ts
        | none => t.value :: replaceLimitAux n false ts
    else if pyUpper t.value = "LIMIT" then t.value :: replaceLimitAux n true ts
    else t.value :: replaceLimitAux n false ts

/-- Embedding of `replace_limit_clause`: replace the first numeric token after
the first `LIMIT` keyword with `new_limit`, re-join, strip, and ensure a
trailing semicolon.  (The source re-parses `sql_str`; tokenization is assumed
to round-trip, so the rewrite is performed on the statement's tokens.) -/
def replace_limit_clause (s : Stmt) (new_limit : Int) : String :=
  let new_sql := pyStrip ⟨((replaceLimitAux new_limit false s).map String.data).flatten⟩
  if pyEndsWith new_sql ";" then new_sql else new_sql ++ ";"

/-- The uppercased text of the first DML token (`stmt_type` in the source). -/
def firstDML (s : Stmt) : Option String :=
  (s.find? (fun t => t.ttype == TType.dml)).map (fun t => pyUpper t.value)

/-- Model of `"\n".join(new_stmts)`. -/
def joinWithNewline : List String → String
  | [] => ""
  | [x] => x
  | x :: xs => x ++ "\n" ++ joinWithNewline xs

/-- `target_limit` of `add_limit_safe`: `min(int(limit), max_limit)` clamped
below at 1. -/
def effectiveLimit (limit max_limit : Int) : Int :=
  if min limit max_limit < 1 then 1 else min limit max_limit

/-- Per-statement body of the `add_limit_safe` loop: `none` when the trimmed
statement is empty (dropped from the output). -/
def processStmt (target : Int) (s : Stmt) : Option String :=
  if stmtStr s = "" then none
  else if has_limit_clause s then
    if parse_limit_value s > target then some (replace_limit_clause s target)
    else some (stmtStr s)
  else
    match firstDML s with
    | some d =>
      if d == "SELECT" || d == "UPDATE" || d == "DELETE" then
        some (pyRstripSemis (stmtStr s) ++ " LIMIT " ++ intToStr target ++ ";")
      else some (stmtStr s)
    | none => some (stmtStr s)

/-- Embedding of `add_limit_safe`, taking the `sqlparse.parse` output (the
statement list).  `Except.error` models the raised `ValueError`. -/
def add_limit_safe (stmts : List Stmt) (limit : Int := 1000)
    (allow_multi_stmt : Bool := false) (max_limit : Int := 1000) :
    Except String String :=
  let target := effectiveLimit limit max_limit
  if stmts.length > 1 ∧ allow_multi_stmt = false then
    .error "不允许执行多语句SQL"
  else
    .ok (joinWithNewline (stmts.filterMap (processStmt target)))

/-! ### Concrete statements used in examples and witnesses -/

/-- Tokens of `SELECT 1` (no trailing semicolon). -/
def stSelectOne : Stmt :=
  [⟨TType.dml, "SELECT"⟩, ⟨TType.other, " "⟩, ⟨TType.other, "1"⟩]

/-- Tokens of `SELECT 1;`. -/
def stSelectOneSemi : Stmt :=
  [⟨TType.dml, "SELECT"⟩, ⟨TType.other, " "⟩, ⟨TType.other, "1"⟩,
   ⟨TType.other, ";"⟩]

/-- Tokens of ` SELECT 2;` (second statement of `SELECT 1; SELECT 2;`). -/
def stSelectTwoSemi : Stmt :=
  [⟨TType.other, " "⟩, ⟨TType.dml, "SELECT"⟩, ⟨TType.other, " "⟩,
   ⟨TType.other, "2"⟩, ⟨TType.other, ";"⟩]

/-- Tokens of `SELECT * FROM t LIMIT 50;`. -/
def stLimit50 : Stmt :=
  [⟨TType.dml, "SELECT"⟩, ⟨TType.other, " "⟩, ⟨TType.other, "*"⟩,
   ⟨TType.other, " "⟩, ⟨TType.other, "FROM"⟩, ⟨TType.other, " "⟩,
   ⟨TType.other, "t"⟩, ⟨TType.other, " "⟩, ⟨TType.other, "LIMIT"⟩,
   ⟨TType.other, " "⟩, ⟨TType.other, "50"⟩, ⟨TType.other, ";"⟩]

/-- Tokens of `SELECT * FROM t LIMIT 5000;`. -/
def stLimit5000 : Stmt :=
  [⟨TType.dml, "SELECT"⟩, ⟨TType.other, " "⟩, ⟨TType.other, "*"⟩,
   ⟨TType.other, " "⟩, ⟨TType.other, "FROM"⟩, ⟨TType.other, " "⟩,
   ⟨TType.other, "t"⟩, ⟨TType.other, " "⟩, ⟨TType.other, "LIMIT"⟩,
   ⟨TType.other, " "⟩, ⟨TType.other, "5000"⟩, ⟨TType.other, ";"⟩]

example : processStmt 1000 stSelectOneSemi = some "SELECT 1 LIMIT 1000;" := by
  rfl

example : processStmt 1000 stLimit50 = some "SELECT * FROM t LIMIT 50;" := by
  rfl

example :
    processStmt 1000 stLimit5000 = some "SELECT * FROM t LIMIT 1000;" := by
  rfl

example : add_limit_safe [stSelectOne] 5 false 0 = .ok "SELECT 1 LIMIT 1;" := by
  rfl

/-! ## Support lemmas for the rewriter theorems -/

theorem pyStrip_eq_empty {s : String} (h : pyStrip s = "") :
    ∀ c ∈ s.data, isPySpace c = true := by
  intro c hc
  have hdata : pyStripL s.data = [] := congrArg String.data h
  unfold pyStripL at hdata
  rw [List.reverse_eq_nil_iff, List.dropWhile_eq_nil_iff] at hdata
  have hdrop : ∀ x ∈ s.data.dropWhile isPySpace, isPySpace x = true := by
    intro x hx
    exact hdata x (by simpa using hx)
  rcases List.mem_append.mp
      (by rw [List.takeWhile_append_dropWhile (p := isPySpace) (l := s.data)]; exact hc) with
    htk | hdr
  · exact List.mem_takeWhile_imp htk
  · exact hdrop c hdr

theorem toUpper_of_isPySpace {c : Char} (h : isPySpace c = true) :
    c.toUpper = c := by
  unfold isPySpace at h
  simp only [Bool.or_eq_true, beq_iff_eq] at h
  rcases h with ((((h | h) | h) | h) | h) | h <;> subst h <;> decide

theorem pyUpper_all_space {v : String} (h : ∀ c ∈ v.data, isPySpace c = true) :
    ∀ c ∈ (pyUpper v).data, isPySpace c = true := by
  intro c hc
  unfold pyUpper at hc
  simp only [List.mem_map] at hc
  obtain ⟨a, ha, rfl⟩ := hc
  rw [toUpper_of_isPySpace (h a ha)]
  exact h a ha

/-- A statement holding a token whose uppercasing is a nonblank keyword has a
nonempty trimmed text, hence is not dropped by the `add_limit_safe` loop. -/
theorem stmtStr_ne_empty_of_keyword {s : Stmt} {t : Token} {w : String}
    (hmem : t ∈ s) (hup : pyUpper t.value = w)
    (hw : ¬ (∀ c ∈ w.data, isPySpace c = true)) : stmtStr s ≠ "" := by
  intro hempty
  apply hw
  rw [← hup]
  apply pyUpper_all_space
  intro c hc
  apply pyStrip_eq_empty hempty
  show c ∈ (stmtText s).data
  unfold stmtText
  simp only [List.mem_flatten, List.mem_map]
  exact ⟨t.value.data, ⟨t, hmem, rfl⟩, hc⟩

theorem stmtStr_ne_empty_of_firstDML {s : Stmt} {d : String}
    (h : firstDML s = some d)
    (hd : d = "SELECT" ∨ d = "UPDATE" ∨ d = "DELETE") : stmtStr s ≠ "" := by
  unfold firstDML at h
  simp only [Option.map_eq_some'] at h
  obtain ⟨t, hfind, hup⟩ := h
  refine stmtStr_ne_empty_of_keyword (List.mem_of_find?_eq_some hfind) hup ?_
  rcases hd with rfl | rfl | rfl
  · exact fun hall => absurd (hall 'S' (by decide)) (by decide)
  · exact fun hall => absurd (hall 'U' (by decide)) (by decide)
  · exact fun hall => absurd (hall 'D' (by decide)) (by decide)

theorem stmtStr_ne_empty_of_has_limit {s : Stmt}
    (hl : has_limit_clause s = true) : stmtStr s ≠ "" := by
  unfold has_limit_clause at hl
  rw [List.any_eq_true] at hl
  obtain ⟨t, hmem, hpred⟩ := hl
  simp only [Bool.and_eq_true, beq_iff_eq] at hpred
  refine stmtStr_ne_empty_of_keyword hmem hpred.2 ?_
  exact fun hall => absurd (hall 'L' (by decide)) (by decide)

theorem one_le_effectiveLimit (limit max_limit : Int) :
    1 ≤ effectiveLimit limit max_limit := by
  unfold effectiveLimit
  rcases le_total limit max_limit with h | h <;>
    simp only [min_def, if_pos h, h.not_lt, if_neg] <;> split <;> omega

theorem effectiveLimit_eq_max_min (limit max_limit : Int) :
    effectiveLimit limit max_limit = max 1 (min limit max_limit) := by
  unfold effectiveLimit
  rcases le_total limit max_limit with h | h <;>
    rcases le_total (min limit max_limit) 1 with h2 | h2 <;>
    simp [min_def, max_def, *] <;> split <;> omega

/-! ## Claim theorems: SQL rewriter -/

/-- C1 (counterexample): with `max_limit = 0` the injected `LIMIT` value is
`max(1, min(5, 0)) = 1`, which exceeds `max_limit`.  So "the injected value
never exceeds `max_limit`" fails for a call with a non-positive
`max_limit`. -/
theorem sql_limit_bound_counterexample :
    add_limit_safe [stSelectOne] 5 false 0 = .ok "SELECT 1 LIMIT 1;" ∧
    effectiveLimit 5 0 > 0 := by
  constructor
  · rfl
  · decide

/-- C1 (amended): for every call of `add_limit_safe` that succeeds, the
effective limit equals `max(1, min(limit, max_limit))` and is at least 1
(it also never exceeds `max_limit` provided `max_limit ≥ 1`), and every
statement without a `LIMIT` clause whose first DML keyword is
SELECT/UPDATE/DELETE is rewritten so that it ends with
`LIMIT <effective_limit>;`. -/
theorem sql_limit_injection (stmts : List Stmt) (limit max_limit : Int)
    (allow : Bool) {out : String}
    (hok : add_limit_safe stmts limit allow max_limit = .ok out) :
    effectiveLimit limit max_limit = max 1 (min limit max_limit) ∧
    1 ≤ effectiveLimit limit max_limit ∧
    (1 ≤ max_limit → effectiveLimit limit max_limit ≤ max_limit) ∧
    out = joinWithNewline
      (stmts.filterMap (processStmt (effectiveLimit limit max_limit))) ∧
    ∀ s ∈ stmts, has_limit_clause s = false →
      (firstDML s = some "SELECT" ∨ firstDML s = some "UPDATE" ∨
        firstDML s = some "DELETE") →
      processStmt (effectiveLimit limit max_limit) s =
        some (pyRstripSemis (stmtStr s) ++ " LIMIT " ++
          intToStr (effectiveLimit limit max_limit) ++ ";") := by
  refine ⟨effectiveLimit_eq_max_min limit max_limit, one_le_effectiveLimit limit max_limit,
    ?_, ?_, ?_⟩
  · intro hmax
    rw [effectiveLimit_eq_max_min]
    omega
  · unfold add_limit_safe at hok
    split at hok
    · exact absurd hok (by simp)
    · simpa using hok.symm
  · intro s _ hnl hdml
    unfold processStmt
    rcases hdml with h | h | h <;>
      rw [if_neg (stmtStr_ne_empty_of_firstDML h (by simp)), hnl, h] <;> simp

/-- C1 (amended) witness at a concrete call. -/
theorem sql_limit_injection_witness :
    1 ≤ effectiveLimit 1000 1000 ∧
    processStmt (effectiveLimit 1000 1000) stSelectOneSemi =
      some (pyRstripSemis (stmtStr stSelectOneSemi) ++ " LIMIT " ++
        intToStr (effectiveLimit 1000 1000) ++ ";") := by
  have h := sql_limit_injection [stSelectOneSemi] 1000 1000 false rfl
  exact ⟨h.2.1, h.2.2.2.2 stSelectOneSemi (by simp) (by decide)
    (Or.inl (by decide))⟩

/-- C2: an input that parses into more than one statement is rejected with the
`ValueError` when `allow_multi_stmt` is false (no SQL produced), and with
`allow_multi_stmt = true` it succeeds with every statement processed
independently by the per-statement loop. -/
theorem sql_multi_statement (stmts : List Stmt) (limit max_limit : Int)
    (hmulti : stmts.length > 1) :
    add_limit_safe stmts limit false max_limit =
      .error "不允许执行多语句SQL" ∧
    add_limit_safe stmts limit true max_limit =
      .ok (joinWithNewline
        (stmts.filterMap (processStmt (effectiveLimit limit max_limit)))) := by
  constructor
  · unfold add_limit_safe
    rw [if_pos ⟨hmulti, rfl⟩]
  · unfold add_limit_safe
    rw [if_neg (by rintro ⟨-, h⟩; cases h)]

/-- C2 witness: `SELECT 1; SELECT 2;` is rejected without the opt-in and both
statements get their own `LIMIT` with it. -/
theorem sql_multi_statement_witness :
    add_limit_safe [stSelectOneSemi, stSelectTwoSemi] 1000 false 1000 =
      .error "不允许执行多语句SQL" ∧
    add_limit_safe [stSelectOneSemi, stSelectTwoSemi] 1000 true 1000 =
      .ok "SELECT 1 LIMIT 1000;\nSELECT 2 LIMIT 1000;" := by
  have h := sql_multi_statement [stSelectOneSemi, stSelectTwoSemi] 1000 1000
    (by decide)
  refine ⟨h.1, ?_⟩
  rw [h.2]
  rfl

/-- C3: for a statement that already has a (lexically detected) `LIMIT`
clause: an over-bound numeric value is replaced in place via
`replace_limit_clause`; an in-bound numeric value leaves the (trimmed)
statement unchanged; a non-numeric value (parsed as `-1`) also leaves it
unchanged. -/
theorem sql_existing_limit (limit max_limit : Int) (s : Stmt)
    (hl : has_limit_clause s = true) :
    (parse_limit_value s > effectiveLimit limit max_limit →
      processStmt (effectiveLimit limit max_limit) s =
        some (replace_limit_clause s (effectiveLimit limit max_limit))) ∧
    (parse_limit_value s ≤ effectiveLimit limit max_limit →
      processStmt (effectiveLimit limit max_limit) s = some (stmtStr s)) ∧
    (parse_limit_value s = -1 →
      processStmt (effectiveLimit limit max_limit) s = some (stmtStr s)) := by
  have hne := stmtStr_ne_empty_of_has_limit hl
  have h1 : (parse_limit_value s > effectiveLimit limit max_limit →
      processStmt (effectiveLimit limit max_limit) s =
        some (replace_limit_clause s (effectiveLimit limit max_limit))) := by
    intro hgt
    unfold processStmt
    rw [if_neg hne, hl, if_pos rfl, if_pos hgt]
  have h2 : (parse_limit_value s ≤ effectiveLimit limit max_limit →
      processStmt (effectiveLimit limit max_limit) s = some (stmtStr s)) := by
    intro hle
    unfold processStmt
    rw [if_neg hne, hl, if_pos rfl, if_neg (by omega)]
  refine ⟨h1, h2, fun hneg => h2 ?_⟩
  have := one_le_effectiveLimit limit max_limit
  omega

/-- C3 witness: `LIMIT 50` is kept as-is and `LIMIT 5000` is rewritten to
`LIMIT 1000` when the effective limit is 1000 (the spec's two examples). -/
theorem sql_existing_limit_witness :
    processStmt (effectiveLimit 1000 1000) stLimit50 = some (stmtStr stLimit50) ∧
    processStmt (effectiveLimit 1000 1000) stLimit5000 =
      some (replace_limit_clause stLimit5000 (effectiveLimit 1000 1000)) := by
  exact ⟨(sql_existing_limit 1000 1000 stLimit50 (by decide)).2.1 (by decide),
    (sql_existing_limit 1000 1000 stLimit5000 (by decide)).1 (by decide)⟩

/-! ## Result row values (Python values as returned by the driver) -/

/-- A dynamic Python value as it occurs in result rows and JSON decoding.
Floats are kept as their literal text (no float arithmetic is modelled);
dictionary keys are restricted to strings, which covers every row mapping
produced by the driver. -/
inductive PyVal where
  | none
  | bool (b : Bool)
  | int (n : Int)
  | float (lit : String)
  | str (s : String)
  | list (xs : List PyVal)
  | tup (xs : List PyVal)
  | dict (kvs : List (String × PyVal))

/-- A result row: an insertion-ordered mapping from column names to values. -/
abbrev Row := List (String × PyVal)

/-- `row.get(k)` / `row[k]` lookup (first matching key). -/
def getVal (r : Row) (k : String) : Option PyVal :=
  (r.find? (fun kv => kv.1 == k)).map (fun kv => kv.2)

/-- `row[k] = v` with Python-dict semantics: overwrite in place when the key
exists, append otherwise. -/
def setVal (r : Row) (k : String) (v : PyVal) : Row :=
  if r.any (fun kv => kv.1 == k) then
    r.map (fun kv => if kv.1 == k then (k, v) else kv)
  else r ++ [(k, v)]

/-! ## Query executor (`DorisConnectorPydoris`) -/

/-- Successful engine outcome: the cursor's `rowcount` and fetched rows. -/
structure ExecOk where
  rowcount : Int
  rows : List Row

/-- The SQLAlchemy engine as an oracle: executing a SQL text either succeeds
or raises an exception carrying a message. -/
def EngineOracle : Type := String → Except String ExecOk

/-- The structured result dictionary `{"code": .., "message": .., "data": ..}`
built by `_sync_execute_sql`. -/
structure ResObj where
  code : Int
  message : PyVal
  data : Option (List Row)

/-- The write-statement classification of `_sync_execute_sql`:
`sql.text.strip().upper().startswith(("INSERT", "UPDATE", "DELETE", "ALTER"))`. -/
def isWriteSql (s : String) : Bool :=
  pyStartsWith (pyUpper (pyStrip s)) "INSERT" ||
  pyStartsWith (pyUpper (pyStrip s)) "UPDATE" ||
  pyStartsWith (pyUpper (pyStrip s)) "DELETE" ||
  pyStartsWith (pyUpper (pyStrip s)) "ALTER"

/-- Embedding of `DorisConnectorPydoris._sync_execute_sql`: write-style
statements commit and put the row count in `message`; read-style statements
put the fetched rows in `data`; engine exceptions are caught and mapped to
code 59402 (write) or 59403 (read) with the exception text as message. -/
def sync_execute_sql (engine : EngineOracle) (sqlText : String) : ResObj :=
  if isWriteSql sqlText then
    match engine sqlText with
    | .ok e => ⟨0, .int e.rowcount, Option.none⟩
    | .error m => ⟨59402, .str m, Option.none⟩
  else
    match engine sqlText with
    | .ok e => ⟨0, .str "ok", some e.rows⟩
    | .error m => ⟨59403, .str m, Option.none⟩

/-- Embedding of `DorisConnectorPydoris.execute_custom_sql`: rewrite via
`add_limit_safe` (with its default `max_limit = 1000`), then execute.  The
rewrite is NOT wrapped in a `try`, so a rewrite failure propagates as a raised
exception (`Except.error`); only engine-level failures are turned into
structured results by `_sync_execute_sql`. -/
def execute_custom_sql (engine : EngineOracle) (stmts : List Stmt)
    (limit : Int := 1000) (allow_multi_stmt : Bool := false) :
    Except String ResObj :=
  match add_limit_safe stmts limit allow_multi_stmt 1000 with
  | .error e => .error e
  | .ok safe => .ok (sync_execute_sql engine safe)

/-- An engine oracle that always succeeds with no rows (used to show that the
multi-statement failure does not depend on the engine at all). -/
def engineNoRows : EngineOracle := fun _ => .ok ⟨0, []⟩

/-- An engine oracle that always succeeds with one one-column row. -/
def engineOneRow : EngineOracle := fun _ => .ok ⟨0, [[("a", PyVal.int 1)]]⟩

/-! ## Claim theorems: query executor -/

/-- C4 (counterexample): `execute_custom_sql` on a two-statement input with
the default `allow_multi_stmt = False` lets the `ValueError` escape as a
raised exception instead of returning a structured result — the caller does
NOT always receive a `{code, message, data}` object. -/
theorem executor_exception_counterexample :
    execute_custom_sql engineNoRows [stSelectOneSemi, stSelectTwoSemi] =
      .error "不允许执行多语句SQL" := by
  rfl

/-- C4 (amended): a rewrite failure makes `execute_custom_sql` raise that very
exception for every engine oracle (hence no SQL is executed); when the
rewrite succeeds the result is the structured object of `_sync_execute_sql`,
and an engine-level failure is caught and mapped to code 59402/59403 with the
underlying message. -/
theorem executor_error_paths (engine : EngineOracle) (stmts : List Stmt)
    (limit : Int) (allow : Bool) :
    (∀ e, add_limit_safe stmts limit allow 1000 = .error e →
      execute_custom_sql engine stmts limit allow = .error e) ∧
    (∀ safe, add_limit_safe stmts limit allow 1000 = .ok safe →
      execute_custom_sql engine stmts limit allow =
        .ok (sync_execute_sql engine safe) ∧
      ∀ m, engine safe = .error m →
        ((sync_execute_sql engine safe).code = 59402 ∨
          (sync_execute_sql engine safe).code = 59403) ∧
        (sync_execute_sql engine safe).message = .str m) := by
  constructor
  · intro e he
    unfold execute_custom_sql
    rw [he]
  · intro safe hsafe
    constructor
    · unfold execute_custom_sql
      rw [hsafe]
    · intro m hm
      unfold sync_execute_sql
      rw [hm]
      split <;> simp

/-- C4 (amended) witness: with an always-failing engine, a single-statement
query returns the structured read-error result `{59403, "boom", None}`. -/
theorem executor_error_paths_witness :
    execute_custom_sql (fun _ => .error "boom") [stSelectOneSemi] =
      .ok (sync_execute_sql (fun _ => .error "boom") "SELECT 1 LIMIT 1000;") ∧
    ((sync_execute_sql (fun _ => .error "boom") "SELECT 1 LIMIT 1000;").code =
        59402 ∨
      (sync_execute_sql (fun _ => .error "boom") "SELECT 1 LIMIT 1000;").code =
        59403) := by
  have h := (executor_error_paths (fun _ => .error "boom") [stSelectOneSemi]
    1000 false).2 "SELECT 1 LIMIT 1000;" rfl
  exact ⟨h.1, (h.2 "boom" rfl).1⟩

/-- C5 (counterexample): a read query with an empty result set produces
exactly the same `code`/`message` pair (0, "ok") as a non-empty successful
read — there is no distinguishing `NoRows` status; only `data` differs. -/
theorem executor_norows_counterexample :
    (sync_execute_sql engineNoRows "SELECT 1").code =
      (sync_execute_sql engineOneRow "SELECT 1").code ∧
    (sync_execute_sql engineNoRows "SELECT 1").message =
      (sync_execute_sql engineOneRow "SELECT 1").message ∧
    (sync_execute_sql engineNoRows "SELECT 1").data = some [] := by
  refine ⟨rfl, rfl, rfl⟩

/-- C5 (amended): a read-style query whose engine execution succeeds with
zero rows yields the plain success result `{0, "ok", []}` — still successful
at the transport level and distinguishable from an `ExecutionError` result
(whose code is nonzero) by the code, but carrying no status distinct from a
non-empty successful read; emptiness is visible only through `data`. -/
theorem executor_empty_read (engine : EngineOracle) (sqlText : String)
    (n : Int) (hread : isWriteSql sqlText = false)
    (hok : engine sqlText = .ok ⟨n, []⟩) :
    sync_execute_sql engine sqlText = ⟨0, .str "ok", some []⟩ ∧
    ∀ (engine2 : EngineOracle) m, engine2 sqlText = .error m →
      (sync_execute_sql engine2 sqlText).code ≠
        (sync_execute_sql engine sqlText).code := by
  constructor
  · unfold sync_execute_sql
    rw [hread, hok]
    simp
  · intro engine2 m hm
    unfold sync_execute_sql
    rw [hread, hok, hm]
    simp

/-- C5 (amended) witness at a concrete read query and engines. -/
theorem executor_empty_read_witness :
    sync_execute_sql engineNoRows "SELECT 1" = ⟨0, .str "ok", some []⟩ ∧
    (sync_execute_sql (fun _ => .error "down") "SELECT 1").code ≠
      (sync_execute_sql engineNoRows "SELECT 1").code := by
  have h := executor_empty_read engineNoRows "SELECT 1" 0 rfl rfl
  exact ⟨h.1, h.2 (fun _ => .error "down") "down" rfl⟩

/-! ## `json.loads` model

Executable model of Python `json.loads` (default flags): values are objects,
arrays, strings, numbers, `true`/`false`/`null`, plus the non-standard
constants `NaN`/`Infinity`/`-Infinity` accepted by default.  Numbers without
fraction/exponent become `PyVal.int`; other numbers keep their literal text as
`PyVal.float`.  Recursion fuel is instantiated at well above the input length,
which bounds the number of recursive calls of any successful parse. -/

/-- Opening brace character. -/
def lbraceC : Char := Char.ofNat 123

/-- Closing brace character. -/
def rbraceC : Char := Char.ofNat 125

/-- Single-quote character. -/
def squoteC : Char := Char.ofNat 39

/-- Backslash character. -/
def bslashC : Char := '\\'

/-- JSON insignificant whitespace. -/
def jsonWs (c : Char) : Bool :=
  c == ' ' || c == '\t' || c == '\n' || c == '\r'

/-- Value of a decimal digit run. -/
def charsToNat (l : List Char) : Nat :=
  l.foldl (fun a c => a * 10 + (c.toNat - 48)) 0

/-- Hexadecimal digit value. -/
def hexDigit? (c : Char) : Option Nat :=
  if c.isDigit then some (c.toNat - 48)
  else if 'a' ≤ c ∧ c ≤ 'f' then some (c.toNat - 87)
  else if 'A' ≤ c ∧ c ≤ 'F' then some (c.toNat - 55)
  else Option.none

/-- Split a leading decimal-digit run. -/
def jsonDigits (l : List Char) : List Char × List Char :=
  (l.takeWhile Char.isDigit, l.dropWhile Char.isDigit)

/-- JSON string body after the opening quote; JSON escapes, raw control
characters rejected (strict mode).  Lone `\uXXXX` escapes are mapped through
`Char.ofNat` (surrogate halves degrade to `\0`, which no claim exercises). -/
def jsonStr? : Nat → List Char → List Char → Option (String × List Char)
  | 0, _, _ => Option.none
  | _, _, [] => Option.none
  | f + 1, acc, c :: rest =>
    if c == '"' then some (⟨acc.reverse⟩, rest)
    else if c == bslashC then
      match rest with
      | [] => Option.none
      | e :: r2 =>
        if e == '"' then jsonStr? f ('"' :: acc) r2
        else if e == bslashC then jsonStr? f (bslashC :: acc) r2
        else if e == '/' then jsonStr? f ('/' :: acc) r2
        else if e == 'b' then jsonStr? f ('\x08' :: acc) r2
        else if e == 'f' then jsonStr? f ('\x0c' :: acc) r2
        else if e == 'n' then jsonStr? f ('\n' :: acc) r2
        else if e == 'r' then jsonStr? f ('\r' :: acc) r2
        else if e == 't' then jsonStr? f ('\t' :: acc) r2
        else if e == 'u' then
          match r2 with
          | a :: b :: c2 :: d :: r3 =>
            match hexDigit? a, hexDigit? b, hexDigit? c2, hexDigit? d with
            | some ha, some hb, some hc, some hd =>
              jsonStr? f (Char.ofNat (((ha * 16 + hb) * 16 + hc) * 16 + hd) :: acc) r3
            | _, _, _, _ => Option.none
          | _ => Option.none
        else Option.none
    else if c.toNat < 32 then Option.none
    else jsonStr? f (c :: acc) rest

/-- JSON number at the head of the input (sign, integer part with the
leading-zero rule, optional fraction and exponent). -/
def jsonNumber? (l : List Char) : Option (PyVal × List Char) :=
  let sign : Bool := match l with
    | '-' :: _ => true
    | _ => false
  let l1 := if sign then l.tail else l
  match l1.head? with
  | Option.none => Option.none
  | some c =>
    if !c.isDigit then Option.none
    else
      let ip := (jsonDigits l1).1
      let l2 := (jsonDigits l1).2
      if ip.length > 1 && ip.head? == some '0' then Option.none
      else
        let fr : List Char × List Char := match l2 with
          | '.' :: r =>
            if ((jsonDigits r).1).isEmpty then ([], l2)
            else ('.' :: (jsonDigits r).1, (jsonDigits r).2)
          | _ => ([], l2)
        let ex : List Char × List Char := match fr.2 with
          | e :: s :: r2 =>
            if (e == 'e' || e == 'E') && (s == '+' || s == '-') then
              if ((jsonDigits r2).1).isEmpty then ([], fr.2)
              else (e :: s :: (jsonDigits r2).1, (jsonDigits r2).2)
            else if (e == 'e' || e == 'E') && s.isDigit then
              (e :: (jsonDigits (s :: r2)).1, (jsonDigits (s :: r2)).2)
            else ([], fr.2)
          | _ => ([], fr.2)
        if fr.1.isEmpty && ex.1.isEmpty then
          let n : Int := Int.ofNat (charsToNat ip)
          some (.int (if sign then -n else n), l2)
        else
          some (.float ⟨(if sign then ['-'] else []) ++ ip ++ fr.1 ++ ex.1⟩, ex.2)

mutual

/-- A JSON value at the head of the input (leading whitespace allowed); empty
objects/arrays are handled inline, others via the member/element loops. -/
def jsonValue? : Nat → List Char → Option (PyVal × List Char)
  | 0, _ => Option.none
  | f + 1, l0 =>
    let l := l0.dropWhile jsonWs
    match l with
    | [] => Option.none
    | c :: rest =>
      if c == '"' then
        match jsonStr? (rest.length + 1) [] rest with
        | some (s, r) => some (.str s, r)
        | Option.none => Option.none
      else if c == lbraceC then
        match rest.dropWhile jsonWs with
        | c2 :: r =>
          if c2 == rbraceC then some (.dict [], r)
          else jsonObjMembers? f [] (c2 :: r)
        | [] => Option.none
      else if c == '[' then
        match rest.dropWhile jsonWs with
        | ']' :: r => some (.list [], r)
        | l1 => jsonArrElems? f [] l1
      else if "true".data.isPrefixOf l then some (.bool true, l.drop 4)
      else if "false".data.isPrefixOf l then some (.bool false, l.drop 5)
      else if "null".data.isPrefixOf l then some (.none, l.drop 4)
      else if "NaN".data.isPrefixOf l then some (.float "NaN", l.drop 3)
      else if "Infinity".data.isPrefixOf l then some (.float "Infinity", l.drop 8)
      else if "-Infinity".data.isPrefixOf l then
        some (.float "-Infinity", l.drop 9)
      else jsonNumber? l

/-- Array elements after the first value position (empty array handled by the
caller). -/
def jsonArrElems? : Nat → List PyVal → List Char → Option (PyVal × List Char)
  | 0, _, _ => Option.none
  | f + 1, acc, l =>
    match jsonValue? f l with
    | Option.none => Option.none
    | some (v, r) =>
      match r.dropWhile jsonWs with
      | ',' :: r2 => jsonArrElems? f (v :: acc) r2
      | ']' :: r2 => some (.list (v :: acc).reverse, r2)
      | _ => Option.none

/-- Object members after the first member position; members accumulate with
Python-dict update semantics (duplicate keys: last value wins). -/
def jsonObjMembers? : Nat → Row → List Char → Option (PyVal × List Char)
  | 0, _, _ => Option.none
  | f + 1, acc, l =>
    match l.dropWhile jsonWs with
    | '"' :: r =>
      match jsonStr? (r.length + 1) [] r with
      | Option.none => Option.none
      | some (k, r2) =>
        match r2.dropWhile jsonWs with
        | ':' :: r3 =>
          match jsonValue? f r3 with
          | Option.none => Option.none
          | some (v, r4) =>
            match r4.dropWhile jsonWs with
            | ',' :: r5 => jsonObjMembers? f (setVal acc k v) r5
            | c :: r5 =>
              if c == rbraceC then some (.dict (setVal acc k v), r5)
              else Option.none
            | [] => Option.none
        | _ => Option.none
    | _ => Option.none

end

/-- Model of `json.loads`: parse one value, allow trailing whitespace only. -/
def jsonParse (s : String) : Option PyVal :=
  match jsonValue? (s.length + 8) s.data with
  | some (v, rest) => if (rest.dropWhile jsonWs).isEmpty then some v else Option.none
  | Option.none => Option.none

/-! ## The two `re.sub` quote-normalization passes of `safe_json_loads` -/

/-- Try the match `\s*'([^']+?)'\s*:` at the head of the input (the key-quote
pattern, whose `(?<=[{,])` lookbehind is checked by the caller); on success
return the captured key and the input after the consumed colon. -/
def matchKeyQuote? (l : List Char) : Option (List Char × List Char) :=
  match l.dropWhile isPySpace with
  | q :: l2 =>
    if q == squoteC then
      match l2.takeWhile (fun c => !(c == squoteC)) with
      | [] => Option.none
      | key =>
        match l2.dropWhile (fun c => !(c == squoteC)) with
        | _ :: l4 =>
          match l4.dropWhile isPySpace with
          | ':' :: l6 => some (key, l6)
          | _ => Option.none
        | [] => Option.none
    else Option.none
  | [] => Option.none

/-- Scan of `re.sub(r"(?<=[{,])\s*'([^']+?)'\s*:", r'"\1":', s)`: the second
argument carries the previous character of the original string (for the
lookbehind); matches are replaced and scanning resumes after each match. -/
def fixKeysAux : Nat → Option Char → List Char → List Char
  | 0, _, _ => []
  | _, _, [] => []
  | f + 1, prev, c :: rest =>
    if prev == some lbraceC || prev == some ',' then
      match matchKeyQuote? (c :: rest) with
      | some (key, rest2) =>
        '"' :: (key ++ '"' :: ':' :: fixKeysAux f (some ':') rest2)
      | Option.none => c :: fixKeysAux f (some c) rest
    else c :: fixKeysAux f (some c) rest

/-- First normalization pass: single-quoted keys to double-quoted keys. -/
def fixKeyQuotes (s : String) : String :=
  ⟨fixKeysAux (s.length + 1) Option.none s.data⟩

/-- Try the match `\s*'([^'\\]*)'\s*(?=[,}])` right after a consumed `:`; on
success return the captured value and the input from the lookahead character
(which is not consumed). -/
def matchValQuote? (l : List Char) : Option (List Char × List Char) :=
  match l.dropWhile isPySpace with
  | q :: l2 =>
    if q == squoteC then
      let v := l2.takeWhile (fun c => !(c == squoteC || c == bslashC))
      match l2.drop v.length with
      | q2 :: l4 =>
        if q2 == squoteC then
          match l4.dropWhile isPySpace with
          | c2 :: l5 =>
            if c2 == ',' || c2 == rbraceC then some (v, c2 :: l5)
            else Option.none
          | [] => Option.none
        else Option.none
      | [] => Option.none
    else Option.none
  | [] => Option.none

/-- Scan of `re.sub(r":\s*'([^'\\]*)'\s*(?=[,}])", r':"\1"', s)`. -/
def fixValsAux : Nat → List Char → List Char
  | 0, _ => []
  | _, [] => []
  | f + 1, c :: rest =>
    if c == ':' then
      match matchValQuote? rest with
      | some (v, rest2) => ':' :: '"' :: (v ++ '"' :: fixValsAux f rest2)
      | Option.none => c :: fixValsAux f rest
    else c :: fixValsAux f rest

/-- Second normalization pass: simple single-quoted values to double-quoted
values. -/
def fixValQuotes (s : String) : String :=
  ⟨fixValsAux (s.length + 1) s.data⟩

/-! ## `ast.literal_eval` model

Executable model of the `ast.literal_eval` fallback, covering the literal
forms that can occur behind the `startswith(('{', '['))` guard: strings
(single- or double-quoted, common escapes), integers, floats (kept as their
literal text), `True`/`False`/`None`, lists, tuples and dicts with string
keys (plus trailing commas).  Other literal forms (sets, bytes, complex
numbers, concatenated string literals, non-string dict keys) are treated as
parse failures, which makes `safe_json_loads` fall through to returning the
original string. -/

/-- Python string-literal body after the opening quote `q`. -/
def pyLitStr? (q : Char) : Nat → List Char → List Char → Option (String × List Char)
  | 0, _, _ => Option.none
  | _, _, [] => Option.none
  | f + 1, acc, c :: rest =>
    if c == q then some (⟨acc.reverse⟩, rest)
    else if c == '\n' then Option.none
    else if c == bslashC then
      match rest with
      | [] => Option.none
      | e :: r2 =>
        if e == bslashC then pyLitStr? q f (bslashC :: acc) r2
        else if e == squoteC then pyLitStr? q f (squoteC :: acc) r2
        else if e == '"' then pyLitStr? q f ('"' :: acc) r2
        else if e == 'n' then pyLitStr? q f ('\n' :: acc) r2
        else if e == 't' then pyLitStr? q f ('\t' :: acc) r2
        else if e == 'r' then pyLitStr? q f ('\r' :: acc) r2
        else if e == 'b' then pyLitStr? q f ('\x08' :: acc) r2
        else if e == 'f' then pyLitStr? q f ('\x0c' :: acc) r2
        else if e == 'v' then pyLitStr? q f ('\x0b' :: acc) r2
        else if e == '0' then pyLitStr? q f ('\x00' :: acc) r2
        else if e == 'x' then
          match r2 with
          | a :: b :: r3 =>
            match hexDigit? a, hexDigit? b with
            | some ha, some hb => pyLitStr? q f (Char.ofNat (ha * 16 + hb) :: acc) r3
            | _, _ => Option.none
          | _ => Option.none
        else if e == 'u' then
          match r2 with
          | a :: b :: c2 :: d :: r3 =>
            match hexDigit? a, hexDigit? b, hexDigit? c2, hexDigit? d with
            | some ha, some hb, some hc, some hd =>
              pyLitStr? q f (Char.ofNat (((ha * 16 + hb) * 16 + hc) * 16 + hd) :: acc) r3
            | _, _, _, _ => Option.none
          | _ => Option.none
        else pyLitStr? q f (e :: bslashC :: acc) r2
    else pyLitStr? q f (c :: acc) rest

/-- Python number literal (after optional unary sign handled by the caller):
digits with underscore grouping, optional fraction/exponent. -/
def pyLitNumber? (neg : Bool) (l : List Char) : Option (PyVal × List Char) :=
  let ip := l.takeWhile (fun c => c.isDigit || c == '_')
  let l2 := l.drop ip.length
  match pyDigits? ip with
  | Option.none => Option.none
  | some n =>
    let fr : List Char × List Char := match l2 with
      | '.' :: r =>
        let fd := r.takeWhile (fun c => c.isDigit || c == '_')
        ('.' :: fd, r.drop fd.length)
      | _ => ([], l2)
    let hasFrac : Bool := match l2 with
      | '.' :: _ => true
      | _ => false
    let ex : List Char × List Char := match fr.2 with
      | e :: r =>
        if e == 'e' || e == 'E' then
          match r with
          | s :: r2 =>
            if s == '+' || s == '-' then
              let ed := r2.takeWhile (fun c => c.isDigit || c == '_')
              if ed.isEmpty then ([], fr.2) else (e :: s :: ed, r2.drop ed.length)
            else
              let ed := r.takeWhile (fun c => c.isDigit || c == '_')
              if ed.isEmpty then ([], fr.2) else (e :: ed, r.drop ed.length)
          | [] => ([], fr.2)
        else ([], fr.2)
      | [] => ([], fr.2)
    if !hasFrac && ex.1.isEmpty then
      some (.int (if neg then -(Int.ofNat n) else Int.ofNat n), l2)
    else
      some (.float ⟨(if neg then ['-'] else []) ++ ip ++ fr.1 ++ ex.1⟩, ex.2)

mutual

/-- A Python literal at the head of the input. -/
def litValue? : Nat → List Char → Option (PyVal × List Char)
  | 0, _ => Option.none
  | f + 1, l0 =>
    let l := l0.dropWhile isPySpace
    match l with
    | [] => Option.none
    | c :: rest =>
      if c == squoteC || c == '"' then
        match pyLitStr? c (rest.length + 1) [] rest with
        | some (s, r) => some (.str s, r)
        | Option.none => Option.none
      else if c == '[' then litElems? f ']' [] rest
      else if c == '(' then
        -- parenthesized expression / tuple literal: `()` and `(v,)` are
        -- tuples, `(v)` is just `v`, `(a, b, ...)` is a tuple
        match litElems? f ')' [] rest with
        | some (.list [x], r) =>
          match litValue? f rest with
          | some (_, r2) =>
            match r2.dropWhile isPySpace with
            | ',' :: _ => some (.tup [x], r)
            | _ => some (x, r)
          | Option.none => some (.tup [x], r)
        | some (.list xs, r) => some (.tup xs, r)
        | some (v, r) => some (v, r)
        | Option.none => Option.none
      else if c == lbraceC then litDict? f [] rest
      else if "True".data.isPrefixOf l then some (.bool true, l.drop 4)
      else if "False".data.isPrefixOf l then some (.bool false, l.drop 5)
      else if "None".data.isPrefixOf l then some (.none, l.drop 4)
      else if c == '-' then
        match litValue? f rest with
        | some (.int n, r) => some (.int (-n), r)
        | some (.float lit, r) => some (.float ("-" ++ lit), r)
        | _ => Option.none
      else if c == '+' then
        match litValue? f rest with
        | some (.int n, r) => some (.int n, r)
        | some (.float lit, r) => some (.float lit, r)
        | _ => Option.none
      else pyLitNumber? false l

/-- Bracketed element list for Python list literals (with trailing comma). -/
def litElems? : Nat → Char → List PyVal → List Char → Option (PyVal × List Char)
  | 0, _, _, _ => Option.none
  | f + 1, close, acc, l =>
    match l.dropWhile isPySpace with
    | c :: r =>
      if c == close then some (.list acc.reverse, r)
      else
        match litValue? f (c :: r) with
        | Option.none => Option.none
        | some (v, r2) =>
          match r2.dropWhile isPySpace with
          | ',' :: r3 => litElems? f close (v :: acc) r3
          | c2 :: r3 =>
            if c2 == close then some (.list (v :: acc).reverse, r3)
            else Option.none
          | [] => Option.none
    | [] => Option.none

/-- Dict literal members (string keys only; other key forms fail). -/
def litDict? : Nat → Row → List Char → Option (PyVal × List Char)
  | 0, _, _ => Option.none
  | f + 1, acc, l =>
    match l.dropWhile isPySpace with
    | c :: r =>
      if c == rbraceC then some (.dict acc.reverse, r)
      else
        match litValue? f (c :: r) with
        | some (.str k, r2) =>
          match r2.dropWhile isPySpace with
          | ':' :: r3 =>
            match litValue? f r3 with
            | Option.none => Option.none
            | some (v, r4) =>
              match r4.dropWhile isPySpace with
              | ',' :: r5 => litDict? f ((k, v) :: acc) r5
              | c2 :: r5 =>
                if c2 == rbraceC then some (.dict ((k, v) :: acc).reverse, r5)
                else Option.none
              | [] => Option.none
          | _ => Option.none
        | _ => Option.none
    | [] => Option.none

end

/-- The guarded `ast.literal_eval` step of `safe_json_loads`: fail (and fall
back to the original string) unless the stripped input starts with a brace or
bracket; then evaluate the literal, requiring only trailing whitespace. -/
def literalEvalStep (s : String) : Option PyVal :=
  match pyStripL s.data with
  | c :: _ =>
    if c == lbraceC || c == '[' then
      match litValue? (s.length + 8) s.data with
      | some (v, rest) =>
        if (rest.dropWhile isPySpace).isEmpty then some v else Option.none
      | Option.none => Option.none
    else Option.none
  | [] => Option.none

/-- Embedding of `safe_json_loads`: non-strings pass through; strings go
through `json.loads`, then the quote-normalizing `re.sub` passes plus
`json.loads`, then guarded `ast.literal_eval`; if everything fails the
original string is returned. -/
def safe_json_loads : PyVal → PyVal
  | .str s =>
    match jsonParse s with
    | some v => v
    | Option.none =>
      match jsonParse (fixValQuotes (fixKeyQuotes s)) with
      | some v => v
      | Option.none =>
        match literalEvalStep s with
        | some v => v
        | Option.none => .str s
  | v => v

/-- Is this value a Python `str`? -/
def PyVal.isStr : PyVal → Bool
  | .str _ => true
  | _ => false

/-! ## Claim theorems: JSON field decoding -/

/-- C9 (counterexample): `safe_json_loads` is not idempotent on every valid
JSON string: `"123"` (a JSON document encoding the string `123`) decodes to
the string `123`, and decoding that again yields the integer `123`. -/
theorem json_decode_counterexample :
    safe_json_loads (.str "\"123\"") = .str "123" ∧
    safe_json_loads (safe_json_loads (.str "\"123\"")) ≠
      safe_json_loads (.str "\"123\"") := by
  refine ⟨rfl, ?_⟩
  intro h
  rw [show safe_json_loads (.str "\"123\"") = .str "123" from rfl] at h
  rw [show safe_json_loads (.str "123") = .int 123 from rfl] at h
  exact PyVal.noConfusion h

/-- C9 (amended): `safe_json_loads` is the identity on non-strings (so a
second application is a no-op whenever the first decode does not yield a
string), and when the standard parse, the quote-normalized parse and the
guarded literal evaluation all fail on a string, the original string is
returned unchanged rather than raising.  Idempotence fails only for strings
whose decoded value is again a string that decodes differently. -/
theorem json_decode_fallbacks :
    (∀ v : PyVal, v.isStr = false → safe_json_loads v = v) ∧
    (∀ v : PyVal, (safe_json_loads v).isStr = false →
      safe_json_loads (safe_json_loads v) = safe_json_loads v) ∧
    (∀ s : String, jsonParse s = Option.none →
      jsonParse (fixValQuotes (fixKeyQuotes s)) = Option.none →
      literalEvalStep s = Option.none →
      safe_json_loads (.str s) = .str s) := by
  have h1 : ∀ v : PyVal, v.isStr = false → safe_json_loads v = v := by
    intro v h
    cases v <;> first
      | rfl
      | exact absurd h (by simp [PyVal.isStr])
  refine ⟨h1, fun v h => h1 _ h, ?_⟩
  intro s hj hf hl
  simp only [safe_json_loads]
  rw [hj, hf, hl]

/-- C9 (amended) witness: a list value is untouched, decoding `[1]` twice
equals decoding it once, and the undecodable string `hello` is returned
as-is. -/
theorem json_decode_fallbacks_witness :
    safe_json_loads (.list [.int 1]) = .list [.int 1] ∧
    safe_json_loads (safe_json_loads (.str "[1]")) = safe_json_loads (.str "[1]") ∧
    safe_json_loads (.str "hello") = .str "hello" := by
  exact ⟨json_decode_fallbacks.1 _ rfl,
    json_decode_fallbacks.2.1 (.str "[1]") rfl,
    json_decode_fallbacks.2.2 "hello" rfl rfl rfl⟩

/-! ## Result materializer (`doris_data_2_json`) -/

/-- Python truthiness of a value (floats via their literal text: zero-valued
literals are falsy). -/
def truthy : PyVal → Bool
  | .none => false
  | .bool b => b
  | .int n => !(n == 0)
  | .float lit => !(lit.data.all (fun c => c == '0' || c == '.' || c == '-' || c == '+'))
  | .str s => !(s == "")
  | .list xs => !xs.isEmpty
  | .tup xs => !xs.isEmpty
  | .dict kvs => !kvs.isEmpty

/-- The serializer-relevant part of `Settings` (`app/conf/config.py`). -/
structure SerSettings where
  s3_prefixes : List String
  s3_default_prefix : String
  medium_fields : List String
  backup_fields : List String
  parse_json_fields : List String
  src_root_fields : List String

/-- The configured default values of `Settings`. -/
def defaultSettings : SerSettings where
  s3_prefixes := ["http", "bos", "s3"]
  s3_default_prefix := "bos://llm-data-process"
  medium_fields := ["image", "images", "video", "videos", "audio", "audios"]
  backup_fields := ["absolute_images", "absolute_image", "absolute_videos",
    "absolute_video", "absolute_audios", "absolute_audio"]
  parse_json_fields := ["image", "images", "video", "videos", "audio", "audios",
    "absolute_images", "absolute_image", "absolute_videos", "absolute_video",
    "absolute_audios", "absolute_audio", "relative_image", "relative_video",
    "relative_audio", "conversations", "meta_data"]
  src_root_fields := ["src_root_path"]

/-- Outcome of `fs_manager.generate_presigned_url` for one URI. -/
inductive SignRes where
  | ok (url : String)
  | valueError
  | fatal

/-- The URL signer as an oracle: `valueError` is the caught per-entry failure,
`fatal` any other exception (uncaught by the inner handler). -/
def SignOracle : Type := String → SignRes

/-- `field in settings.xxx` detection loop over the first row's keys with the
`if not acc and ...` first-match-wins pattern of the source (an already-found
empty-string field would be overwritten, exactly as in Python where the empty
string is falsy). -/
def firstFieldIn (keys : List String) (cands : List String) : String :=
  keys.foldl (fun acc f => if acc == "" && cands.contains f then f else acc) ""

/-- Gate of the JSON-decoding loop:
`field_value is not None and not isinstance(field_value, list)`. -/
def decodeGate : PyVal → Bool
  | .none => false
  | .list _ => false
  | _ => true

/-- One `parse_json_fields` step on a row (missing keys skipped). -/
def decodeField (r : Row) (f : String) : Row :=
  match getVal r f with
  | some v => if decodeGate v then setVal r f (safe_json_loads v) else r
  | Option.none => r

/-- The JSON-decoding loop over `settings.parse_json_fields`. -/
def decodeFields : List String → Row → Row
  | [], r => r
  | f :: fs, r => decodeFields fs (decodeField r f)

/-- `processed_item.get(field).copy()` followed by iteration: `None`, strings,
numbers and tuples have no `.copy` (or are missing entirely), which raises and
aborts the row; lists iterate over their items, dicts over their keys. -/
def pyIterCopy : Option PyVal → Except Unit (List PyVal)
  | some (.list xs) => .ok xs
  | some (.dict kvs) => .ok (kvs.map (fun kv => PyVal.str kv.1))
  | _ => .error ()

/-- Model of `os.path.join(a, b)` (POSIX, two arguments): an absolute second
component discards the first; otherwise a slash is inserted unless the first
component is empty or already ends with one. -/
def osPathJoin (a b : String) : String :=
  if pyStartsWith b "/" then b
  else if a == "" || pyEndsWith a "/" then a ++ b
  else a ++ "/" ++ b

/-- One iteration of the primary medium-field loop for entry `e` of row `r`:
`ok (some url)` appends a signed URL, `ok none` contributes nothing (caught
`ValueError` or falsy URL), `error` aborts the row (uncaught exception:
non-string entry, missing root key, non-string root value, fatal signer
failure). -/
def resolvePrimaryOne (st : SerSettings) (sign : SignOracle) (srcRoot : String)
    (r : Row) (e : PyVal) : Except Unit (Option String) :=
  match e with
  | .str u =>
    if st.s3_prefixes.any (fun p => pyStartsWith u p) then
      match sign u with
      | .ok s => .ok (if s == "" then Option.none else some s)
      | .valueError => .ok Option.none
      | .fatal => .error ()
    else if srcRoot == "" then
      match sign u with
      | .ok s => .ok (if s == "" then Option.none else some s)
      | .valueError => .ok Option.none
      | .fatal => .error ()
    else
      match getVal r srcRoot with
      | Option.none => .error ()
      | some rootv =>
        if truthy rootv then
          match rootv with
          | .str root =>
            match sign (osPathJoin root u) with
            | .ok s => .ok (if s == "" then Option.none else some s)
            | .valueError => .ok Option.none
            | .fatal => .error ()
          | _ => .error ()
        else
          match sign u with
          | .ok s => .ok (if s == "" then Option.none else some s)
          | .valueError => .ok Option.none
          | .fatal => .error ()
  | _ => .error ()

/-- The primary medium-field loop over all entries. -/
def resolvePrimary (st : SerSettings) (sign : SignOracle) (srcRoot : String)
    (r : Row) : List PyVal → Except Unit (List String)
  | [] => .ok []
  | e :: es =>
    match resolvePrimaryOne st sign srcRoot r e with
    | .error _ => .error ()
    | .ok Option.none => resolvePrimary st sign srcRoot r es
    | .ok (some s) =>
      match resolvePrimary st sign srcRoot r es with
      | .error _ => .error ()
      | .ok rest => .ok (s :: rest)

/-- One iteration of the backup medium-field loop: bare paths get the default
storage prefix prepended (plain string concatenation in the source). -/
def resolveBackupOne (st : SerSettings) (sign : SignOracle) (e : PyVal) :
    Except Unit (Option String) :=
  match e with
  | .str u =>
    match sign (if st.s3_prefixes.any (fun p => pyStartsWith u p) then u
      else st.s3_default_prefix ++ u) with
    | .ok s => .ok (if s == "" then Option.none else some s)
    | .valueError => .ok Option.none
    | .fatal => .error ()
  | _ => .error ()

/-- The backup medium-field loop over all entries. -/
def resolveBackup (st : SerSettings) (sign : SignOracle) :
    List PyVal → Except Unit (List String)
  | [] => .ok []
  | e :: es =>
    match resolveBackupOne st sign e with
    | .error _ => .error ()
    | .ok Option.none => resolveBackup st sign es
    | .ok (some s) =>
      match resolveBackup st sign es with
      | .error _ => .error ()
      | .ok rest => .ok (s :: rest)

/-- The `if not presigned_urls:` backup block: consulted only when the primary
loop produced nothing; `processed_item[backup_medium_field]` raises `KeyError`
when the key is missing (aborting the row), a falsy value skips the block. -/
def backupUrls (st : SerSettings) (sign : SignOracle) (backupField : String)
    (r : Row) : Except Unit (List String) :=
  if backupField == "" then .ok []
  else
    match getVal r backupField with
    | Option.none => .error ()
    | some bv =>
      if truthy bv then
        match pyIterCopy (some bv) with
        | .error _ => .error ()
        | .ok es => resolveBackup st sign es
      else .ok []

/-- Processing of one medium field `m` on row `r`: primary loop, backup
fallback when it yielded nothing, and overwrite only when at least one signed
URL was produced. -/
def processMedium (st : SerSettings) (sign : SignOracle)
    (srcRoot backupField : String) (r : Row) (m : String) : Except Unit Row :=
  match pyIterCopy (getVal r m) with
  | .error _ => .error ()
  | .ok es =>
    match resolvePrimary st sign srcRoot r es with
    | .error _ => .error ()
    | .ok primary =>
      match (if primary.isEmpty then backupUrls st sign backupField r
        else .ok []) with
      | .error _ => .error ()
      | .ok extra =>
        if (primary ++ extra).isEmpty then .ok r
        else .ok (setVal r m (.list ((primary ++ extra).map PyVal.str)))

/-- The loop over all detected medium fields (threading the partly updated
row, as the source mutates `processed_item` in place). -/
def processMediums (st : SerSettings) (sign : SignOracle)
    (srcRoot backupField : String) : List String → Row → Except Unit Row
  | [], r => .ok r
  | m :: ms, r =>
    match processMedium st sign srcRoot backupField r m with
    | .error _ => .error ()
    | .ok r2 => processMediums st sign srcRoot backupField ms r2

/-- Outcome of one item of the batch loop. -/
inductive RowStep where
  | skipped
  | ok (r : Row)
  | aborted

/-- The `try:` body for one batch item: non-dicts are skipped, the row is
copied, JSON fields decoded, medium fields resolved; any uncaught exception
in the medium handling aborts the batch. -/
def processRow (st : SerSettings) (sign : SignOracle) (mediums : List String)
    (srcRoot backupField : String) (item : PyVal) : RowStep :=
  match item with
  | .dict kvs =>
    match processMediums st sign srcRoot backupField mediums
      (decodeFields st.parse_json_fields kvs) with
    | .ok r2 => RowStep.ok r2
    | .error _ => RowStep.aborted
  | _ => RowStep.skipped

/-- The batch loop: skipped items contribute nothing, an aborted item ends the
batch with the rows materialized so far. -/
def batchLoop (step : PyVal → RowStep) : List PyVal → List Row
  | [] => []
  | it :: rest =>
    match step it with
    | RowStep.skipped => batchLoop step rest
    | RowStep.ok r => r :: batchLoop step rest
    | RowStep.aborted => []

/-- The materialized row of one item under `step`, when any. -/
def stepOk (step : PyVal → RowStep) (item : PyVal) : Option Row :=
  match step item with
  | RowStep.ok r => some r
  | _ => Option.none

/-- The per-item step with medium/backup/root fields detected from the first
row's key set (in key order, first match wins for root and backup). -/
def detectedStep (st : SerSettings) (sign : SignOracle) (kvs0 : Row) :
    PyVal → RowStep :=
  processRow st sign
    ((kvs0.map Prod.fst).filter (fun k => st.medium_fields.contains k))
    (firstFieldIn (kvs0.map Prod.fst) st.src_root_fields)
    (firstFieldIn (kvs0.map Prod.fst) st.backup_fields)

/-- Embedding of `doris_data_2_json`: non-list input and the empty list return
the empty result; otherwise the medium/backup/root fields are detected from
the first row's key set and each item is processed in order.  `Except.error`
models an exception escaping the function (first item not a dict). -/
def doris_data_2_json (st : SerSettings) (sign : SignOracle) (raw : PyVal) :
    Except Unit (List Row) :=
  match raw with
  | .list [] => .ok []
  | .list (first :: rest) =>
    match first with
    | .dict kvs0 => .ok (batchLoop (detectedStep st sign kvs0) (.dict kvs0 :: rest))
    | _ => .error ()
  | _ => .ok []

/-- Is this value a Python `list`? -/
def PyVal.isList : PyVal → Bool
  | .list _ => true
  | _ => false

/-! ## Support lemmas for the materializer theorems -/

theorem getVal_cons (kv : String × PyVal) (rest : Row) (g : String) :
    getVal (kv :: rest) g =
      if kv.1 == g then some kv.2 else getVal rest g := by
  unfold getVal
  rw [List.find?_cons]
  cases hg : kv.1 == g
  · simp only [hg, Bool.false_eq_true, if_neg, not_false_iff]
  · simp only [hg, if_pos]
    rfl

theorem getVal_map_set_ne (r : Row) (k g : String) (v : PyVal) (h : g ≠ k) :
    getVal (r.map (fun kv => if kv.1 == k then (k, v) else kv)) g =
      getVal r g := by
  induction r with
  | nil => rfl
  | cons kv rest ih =>
    rw [List.map_cons, getVal_cons, getVal_cons]
    by_cases hk : (kv.1 == k) = true
    · have hkg : (k == g) = false := by simpa using (fun e => h e.symm)
      have hg2 : (kv.1 == g) = false := by
        simp only [beq_eq_false_iff_ne, ne_eq]
        rw [show kv.1 = k by simpa using hk]
        exact fun e => h e.symm
      rw [if_pos hk]
      simp only [hkg, hg2, Bool.false_eq_true, if_neg, not_false_iff]
      exact ih
    · rw [if_neg hk]
      cases hg : kv.1 == g
      · simp only [Bool.false_eq_true, if_neg, not_false_iff]
        exact ih
      · simp only [if_pos]

theorem getVal_append_one_ne (r : Row) (k g : String) (v : PyVal)
    (h : g ≠ k) : getVal (r ++ [(k, v)]) g = getVal r g := by
  induction r with
  | nil =>
    rw [List.nil_append, getVal_cons]
    have hkg : (k == g) = false := by simpa using (fun e => h e.symm)
    simp only [hkg, Bool.false_eq_true, if_neg, not_false_iff]
  | cons kv rest ih =>
    rw [List.cons_append, getVal_cons, getVal_cons]
    cases hg : kv.1 == g
    · simp only [Bool.false_eq_true, if_neg, not_false_iff]
      exact ih
    · simp only [if_pos]

theorem getVal_setVal_ne (r : Row) (k g : String) (v : PyVal) (h : g ≠ k) :
    getVal (setVal r k v) g = getVal r g := by
  unfold setVal
  split
  · exact getVal_map_set_ne r k g v h
  · exact getVal_append_one_ne r k g v h

theorem decodeField_keeps (r : Row) (f g : String) (h : g ≠ f) :
    getVal (decodeField r f) g = getVal r g := by
  unfold decodeField
  cases hv : getVal r f with
  | none => rfl
  | some v =>
    dsimp only
    cases hdg : decodeGate v
    · rw [if_neg (by simp)]
    · rw [if_pos rfl]
      exact getVal_setVal_ne r f g _ h

theorem decodeFields_keeps (fs : List String) (r : Row) (g : String)
    (h : ∀ f ∈ fs, g ≠ f) : getVal (decodeFields fs r) g = getVal r g := by
  induction fs generalizing r with
  | nil => rfl
  | cons f fs ih =>
    unfold decodeFields
    rw [ih (decodeField r f) (fun x hx => h x (List.mem_cons_of_mem f hx))]
    exact decodeField_keeps r f g (h f (List.mem_cons_self f fs))

/-- Shape of one medium-field step: either the row is untouched (zero signed
URLs) or exactly the field `m` is overwritten with a nonempty signed-URL
list. -/
theorem processMedium_shape (st : SerSettings) (sign : SignOracle)
    (srcRoot backupField : String) (r : Row) (m : String) (r2 : Row)
    (h : processMedium st sign srcRoot backupField r m = .ok r2) :
    r2 = r ∨ ∃ urls : List String, urls ≠ [] ∧
      r2 = setVal r m (.list (urls.map PyVal.str)) := by
  unfold processMedium at h
  cases hic : pyIterCopy (getVal r m) with
  | error e => rw [hic] at h; exact Except.noConfusion h
  | ok es =>
    rw [hic] at h
    dsimp only at h
    cases hrp : resolvePrimary st sign srcRoot r es with
    | error e => rw [hrp] at h; exact Except.noConfusion h
    | ok primary =>
      rw [hrp] at h
      dsimp only at h
      cases hbu : (if primary.isEmpty then
          backupUrls st sign backupField r else .ok []) with
      | error e => rw [hbu] at h; exact Except.noConfusion h
      | ok extra =>
        rw [hbu] at h
        dsimp only at h
        by_cases hemp : (primary ++ extra).isEmpty = true
        · rw [if_pos hemp] at h
          exact Or.inl (Except.ok.inj h).symm
        · rw [if_neg hemp] at h
          refine Or.inr ⟨primary ++ extra, ?_, (Except.ok.inj h).symm⟩
          intro hnil
          exact hemp (by rw [hnil]; rfl)

theorem processMediums_keeps (st : SerSettings) (sign : SignOracle)
    (srcRoot backupField : String) (ms : List String) (r r2 : Row)
    (g : String) (h : processMediums st sign srcRoot backupField ms r = .ok r2)
    (hg : ∀ m ∈ ms, g ≠ m) : getVal r2 g = getVal r g := by
  induction ms generalizing r with
  | nil => rw [(Except.ok.inj h).symm]
  | cons m ms ih =>
    unfold processMediums at h
    cases hm : processMedium st sign srcRoot backupField r m with
    | error e => rw [hm] at h; exact Except.noConfusion h
    | ok rmid =>
      rw [hm] at h
      dsimp only at h
      rw [ih rmid h (fun x hx => hg x (List.mem_cons_of_mem m hx))]
      rcases processMedium_shape st sign srcRoot backupField r m rmid hm with
        rfl | ⟨urls, -, rfl⟩
      · rfl
      · exact getVal_setVal_ne r m g _ (hg m (List.mem_cons_self m ms))

/-- Did this step abort the batch? -/
def isAborted : RowStep → Bool
  | RowStep.aborted => true
  | _ => false

theorem eq_aborted_of_isAborted {s : RowStep} (h : isAborted s = true) :
    s = RowStep.aborted := by
  cases s <;> first
    | rfl
    | exact absurd h (by simp [isAborted])

/-- The batch loop keeps exactly the materialized rows before the first
aborting item, in order, and drops everything from that item on. -/
theorem batchLoop_append_abort (step : PyVal → RowStep) (pre post : List PyVal)
    (faulty : PyVal) (hpre : ∀ x ∈ pre, isAborted (step x) = false)
    (hfault : isAborted (step faulty) = true) :
    batchLoop step (pre ++ faulty :: post) = pre.filterMap (stepOk step) := by
  induction pre with
  | nil =>
    rw [List.nil_append]
    unfold batchLoop
    rw [eq_aborted_of_isAborted hfault]
    rfl
  | cons a pre ih =>
    have ha := hpre a (List.mem_cons_self a pre)
    have ihh := ih (fun x hx => hpre x (List.mem_cons_of_mem a hx))
    rw [List.cons_append]
    unfold batchLoop
    rw [List.filterMap_cons]
    cases hs : step a with
    | skipped =>
      simp only [stepOk, hs]
      exact ihh
    | ok r =>
      simp only [stepOk, hs]
      rw [ihh]
    | aborted =>
      rw [hs] at ha
      simp [isAborted] at ha

/-! ## Claim theorems: result materializer -/

/-- C6: when every item before position `k` materializes or is skipped and
item `k` aborts (raises), the batch result is exactly the materialized rows
that precede `k`, in order; no item at or after `k` contributes. -/
theorem serializer_partial_batch (st : SerSettings) (sign : SignOracle)
    (kvs0 : Row) (pre post : List PyVal) (faulty : PyVal)
    (hfirst : (pre ++ faulty :: post).head? = some (.dict kvs0))
    (hpre : ∀ x ∈ pre, isAborted (detectedStep st sign kvs0 x) = false)
    (hfault : isAborted (detectedStep st sign kvs0 faulty) = true) :
    doris_data_2_json st sign (.list (pre ++ faulty :: post)) =
      .ok (pre.filterMap (stepOk (detectedStep st sign kvs0))) := by
  cases pre with
  | nil =>
    rw [List.nil_append] at hfirst ⊢
    rw [List.head?_cons, Option.some.injEq] at hfirst
    subst hfirst
    have hb := batchLoop_append_abort (detectedStep st sign kvs0) [] post _
      (fun x hx => absurd hx (List.not_mem_nil x)) hfault
    rw [List.nil_append] at hb
    simp only [doris_data_2_json]
    rw [hb]
  | cons a pre2 =>
    rw [List.cons_append, List.head?_cons, Option.some.injEq] at hfirst
    subst hfirst
    have hb := batchLoop_append_abort (detectedStep st sign kvs0)
      (.dict kvs0 :: pre2) post faulty hpre hfault
    rw [List.cons_append] at hb
    simp only [doris_data_2_json, List.cons_append]
    rw [hb]

/-- Sign oracle for the witnesses: object-store URIs sign successfully,
everything else raises the caught `ValueError`. -/
def signBosOk : SignOracle := fun u =>
  if pyStartsWith u "bos://" then .ok ("signed-" ++ u) else .valueError

/-- First witness row: a well-formed item. -/
def wKvs : Row := [("id", PyVal.int 1), ("images", PyVal.list [PyVal.str "bos://b/x"])]

/-- Second witness row: `images` is `None`, so `.copy()` raises and aborts. -/
def wRowBad : PyVal := .dict [("id", PyVal.int 2), ("images", PyVal.none)]

/-- Third witness row: well-formed, but after the fault it must be dropped. -/
def wRow3 : PyVal := .dict [("id", PyVal.int 3), ("images", PyVal.list [PyVal.str "bos://b/z"])]

/-- The materialization of `wKvs`. -/
def wKvsOut : Row := [("id", PyVal.int 1), ("images", PyVal.list [PyVal.str "signed-bos://b/x"])]

/-- C6 witness: in the three-row batch where row 2 faults, the result is
exactly row 1 materialized. -/
theorem serializer_partial_batch_witness :
    doris_data_2_json defaultSettings signBosOk
      (.list [.dict wKvs, wRowBad, wRow3]) = .ok [wKvsOut] := by
  have h := serializer_partial_batch defaultSettings signBosOk wKvs
    [.dict wKvs] [wRow3] wRowBad rfl
    (by
      intro x hx
      rw [List.mem_singleton] at hx
      subst hx
      rfl)
    rfl
  exact h.trans (by rfl)

/-- Sign oracle that fails (with the caught `ValueError`) on every URI. -/
def signNever : SignOracle := fun _ => .valueError

/-- Sign oracle that only signs URIs carrying the configured default storage
prefix. -/
def signDefaultOnly : SignOracle := fun u =>
  if pyStartsWith u "bos://llm-data-process" then .ok ("signed-" ++ u)
  else .valueError

/-- Row whose primary medium field is `["a"]` and backup field `["b"]`. -/
def cRowPB : Row :=
  [("images", PyVal.list [PyVal.str "a"]),
   ("absolute_images", PyVal.list [PyVal.str "b"])]

/-- C7 (counterexample): when every backup entry also fails to sign, the
backup resolution yields the empty list, and the materialized row keeps the
original nonempty primary value `["a"]` — it does NOT equal the list of
signed URLs obtained from the backup entries. -/
theorem serializer_backup_counterexample :
    resolveBackup defaultSettings signNever [PyVal.str "b"] = .ok [] ∧
    doris_data_2_json defaultSettings signNever (.list [.dict cRowPB]) =
      .ok [cRowPB] ∧
    getVal cRowPB "images" = some (PyVal.list [PyVal.str "a"]) := by
  exact ⟨rfl, rfl, rfl⟩

/-- C7 (amended): when the primary medium field resolves to zero signed URLs,
the backup field is present with a truthy value, and the backup resolution
(prepending the default storage prefix to entries without a recognized
prefix) yields a nonempty URL list, then the row's primary medium field is
overwritten with exactly that list; when the backup also yields nothing the
field keeps its value. -/
theorem serializer_backup_fallback (st : SerSettings) (sign : SignOracle)
    (srcRoot backupField : String) (r : Row) (m : String)
    (es bes : List PyVal) (bv : PyVal) (urls : List String)
    (hes : pyIterCopy (getVal r m) = .ok es)
    (hprim : resolvePrimary st sign srcRoot r es = .ok [])
    (hbf : backupField ≠ "")
    (hbv : getVal r backupField = some bv)
    (htr : truthy bv = true)
    (hbes : pyIterCopy (some bv) = .ok bes)
    (hres : resolveBackup st sign bes = .ok urls)
    (hne : urls ≠ []) :
    processMedium st sign srcRoot backupField r m =
      .ok (setVal r m (.list (urls.map PyVal.str))) := by
  have hback : backupUrls st sign backupField r = .ok urls := by
    unfold backupUrls
    rw [if_neg (by simp [hbf]), hbv]
    dsimp only
    rw [if_pos htr, hbes]
    dsimp only
    exact hres
  cases urls with
  | nil => exact absurd rfl hne
  | cons u us =>
    unfold processMedium
    rw [hes]
    dsimp only
    rw [hprim]
    dsimp only
    rw [show (if ([] : List String).isEmpty = true then
        backupUrls st sign backupField r else Except.ok []) =
        backupUrls st sign backupField r from if_pos rfl, hback]
    dsimp only
    rw [if_neg (by simp), List.nil_append]

/-- C7 (amended) witness: primary entry `a` fails to sign, backup entry `b`
gets the default prefix prepended and signs; the medium field becomes exactly
the signed backup list. -/
theorem serializer_backup_fallback_witness :
    processMedium defaultSettings signDefaultOnly "" "absolute_images"
      cRowPB "images" =
      .ok (setVal cRowPB "images"
        (.list (["signed-bos://llm-data-processb"].map PyVal.str))) := by
  exact serializer_backup_fallback defaultSettings signDefaultOnly ""
    "absolute_images" cRowPB "images" [PyVal.str "a"] [PyVal.str "b"]
    (PyVal.list [PyVal.str "b"]) ["signed-bos://llm-data-processb"]
    rfl rfl (by decide) rfl rfl rfl rfl (by simp)

/-- C8: a medium field is overwritten only when at least one signed URL was
produced (otherwise the whole row is left untouched by that field's
resolution step), and a successfully materialized row agrees with the input
row on every field that is neither JSON-decoded nor a detected medium
field. -/
theorem serializer_overwrite_frame :
    (∀ (st : SerSettings) (sign : SignOracle) (srcRoot backupField : String)
      (r : Row) (m : String) (r2 : Row),
      processMedium st sign srcRoot backupField r m = .ok r2 →
      r2 = r ∨ ∃ urls : List String, urls ≠ [] ∧
        r2 = setVal r m (.list (urls.map PyVal.str))) ∧
    (∀ (st : SerSettings) (sign : SignOracle) (mediums : List String)
      (srcRoot backupField : String) (kvs out : Row) (g : String),
      processRow st sign mediums srcRoot backupField (.dict kvs) =
        RowStep.ok out →
      (∀ f ∈ st.parse_json_fields, g ≠ f) → (∀ m ∈ mediums, g ≠ m) →
      getVal out g = getVal kvs g) := by
  refine ⟨processMedium_shape, ?_⟩
  intro st sign mediums srcRoot backupField kvs out g h hpj hm
  unfold processRow at h
  dsimp only at h
  cases hpm : processMediums st sign srcRoot backupField mediums
      (decodeFields st.parse_json_fields kvs) with
  | error e =>
    rw [hpm] at h
    exact RowStep.noConfusion h
  | ok r2 =>
    rw [hpm] at h
    dsimp only at h
    rw [← RowStep.ok.inj h]
    rw [processMediums_keeps st sign srcRoot backupField mediums _ r2 g hpm hm]
    exact decodeFields_keeps st.parse_json_fields kvs g hpj

/-- C8 witness: on the concrete row, the medium step produced the signed list
(nonempty), and the untouched field `id` is unchanged in the output. -/
theorem serializer_overwrite_frame_witness :
    (wKvsOut = wKvs ∨ ∃ urls : List String, urls ≠ [] ∧
      wKvsOut = setVal wKvs "images" (.list (urls.map PyVal.str))) ∧
    getVal wKvsOut "id" = getVal wKvs "id" := by
  exact ⟨serializer_overwrite_frame.1 defaultSettings signBosOk "" "" wKvs
      "images" wKvsOut rfl,
    serializer_overwrite_frame.2 defaultSettings signBosOk ["images"] "" ""
      wKvs wKvsOut "id" rfl (by decide) (by decide)⟩

/-- C10: a non-list input and the empty list both yield the empty result
(no exception, no `None`), independently of the sign oracle and settings —
field detection and row processing are never reached. -/
theorem serializer_degenerate :
    (∀ (st : SerSettings) (sign : SignOracle) (raw : PyVal),
      raw.isList = false → doris_data_2_json st sign raw = .ok []) ∧
    (∀ (st : SerSettings) (sign : SignOracle),
      doris_data_2_json st sign (.list []) = .ok []) := by
  refine ⟨?_, fun st sign => rfl⟩
  intro st sign raw h
  cases raw <;> first
    | rfl
    | exact absurd h (by simp [PyVal.isList])

/-- C10 witness at a non-list input and the empty list. -/
theorem serializer_degenerate_witness :
    doris_data_2_json defaultSettings signNever (.int 3) = .ok [] ∧
    doris_data_2_json defaultSettings signNever (.list []) = .ok [] :=
  ⟨serializer_degenerate.1 defaultSettings signNever (.int 3) rfl,
   serializer_degenerate.2 defaultSettings signNever⟩
